import Mathlib

/-!
Shallow embedding of the bindless-mesh pipeline of `src/mesh.rs`:
geometry extraction (`extract_mesh`), change tracking
(`extract_bindless_meshes`), the mesh registry (`BindlessMeshes`, a
`BTreeMap` modelled as a key-sorted association list), and the buffer
packer/uploader (`prepare_bindless_meshes`).

Vector coordinates (`f32` in the source) are modelled as exact rationals:
the pipeline performs no arithmetic on them beyond componentwise `min`/`max`
(which are exact in IEEE 754), copying and comparison.

Rust panics (out-of-bounds slice indexing) are modelled by the `crash`
outcome of `ExtractResult`; `Err(e)` by `err e`.
-/

set_option autoImplicit false

/-- Three-component vector; coordinates modelled as exact rationals. -/
structure Vec3 where
  x : ℚ
  y : ℚ
  z : ℚ
  deriving DecidableEq, Repr

/-- Two-component vector. -/
structure Vec2 where
  x : ℚ
  y : ℚ
  deriving DecidableEq, Repr

/-- Embeds `GpuVertex` of `src/mesh.rs`. -/
structure GpuVertex where
  position : Vec3
  normal : Vec3
  uv : Vec2
  deriving DecidableEq, Repr

/-- Embeds `GpuPrimitive` of `src/mesh.rs`: three world-space vertex positions,
three local vertex indices, and the back-reference to the owning BVH node. -/
structure GpuPrimitive where
  vertices : Vec3 × Vec3 × Vec3
  indices : ℕ × ℕ × ℕ
  node_index : ℕ
  deriving DecidableEq, Repr

/-- Embeds `GpuNode` of `src/mesh.rs` (stackless flattened BVH node). -/
structure GpuNode where
  min : Vec3
  max : Vec3
  entry_index : ℕ
  exit_index : ℕ
  face_index : ℕ
  deriving DecidableEq, Repr

/-- Embeds `BindlessMesh` of `src/mesh.rs` (the compiled mesh record). -/
structure BindlessMesh where
  vertices : List GpuVertex
  primitives : List GpuPrimitive
  nodes : List GpuNode
  deriving DecidableEq, Repr

/-- Embeds `BindlessMeshError` of `src/mesh.rs`. -/
inductive BindlessMeshError where
  | MissAttributePosition
  | MissAttributeNormal
  | MissAttributeUV
  | IncompatiblePrimitiveTopology
  deriving DecidableEq, Repr

/-- The primitive topologies relevant to `extract_mesh` (`wgpu` enum). -/
inductive PrimitiveTopology where
  | TriangleList
  | TriangleStrip
  | PointList
  | LineList
  | LineStrip
  deriving DecidableEq, Repr

/-- Outcome of running a fallible Rust function that may also panic:
`ok a` for `Ok(a)`, `err e` for `Err(e)`, `crash` for a panic
(out-of-bounds indexing). -/
inductive ExtractResult (α : Type) where
  | ok (a : α)
  | err (e : BindlessMeshError)
  | crash
  deriving DecidableEq, Repr

/-- Input mesh description as `extract_mesh` observes it through the bevy
`Mesh` API: each attribute is `some` when present with the element type the
source accepts (`as_float3` for positions/normals, `Float32x2` for uv) and
`none` when absent or of the wrong type; `indices?` is the optional explicit
index list; `topology` the primitive topology. -/
structure MeshDescr where
  positions? : Option (List Vec3)
  normals? : Option (List Vec3)
  uvs? : Option (List Vec2)
  indices? : Option (List ℕ)
  topology : PrimitiveTopology

/-- Embeds the vertex-building loop of `extract_mesh`:
`itertools::multizip((positions, normals, uvs))` truncates to the shortest
attribute array. -/
def mkVertices (ps ns : List Vec3) (uvs : List Vec2) : List GpuVertex :=
  (ps.zip (ns.zip uvs)).map fun pnu => ⟨pnu.1, pnu.2.1, pnu.2.2⟩

/-- Embeds the index-defaulting of `extract_mesh`: explicit indices if the
mesh has them, otherwise the identity sequence `0..vertices.len()`. -/
def effIndices (verts : List GpuVertex) : Option (List ℕ) → List ℕ
  | some is => is
  | none => List.range verts.length

/-- Embeds the triangle-list branch of `extract_mesh`: indices are consumed
in consecutive chunks of three; a trailing chunk of fewer than three fails
with `IncompatiblePrimitiveTopology` (`next_tuple()` returns `None`); an
out-of-bounds vertex lookup inside a complete chunk panics (`crash`). -/
def listFaces (verts : List GpuVertex) : List ℕ → ExtractResult (List GpuPrimitive)
  | [] => .ok []
  | v0 :: v1 :: v2 :: rest =>
    match verts[v0]?, verts[v1]?, verts[v2]? with
    | some a, some b, some c =>
      match listFaces verts rest with
      | .ok faces =>
        .ok (⟨(a.position, b.position, c.position), (v0, v1, v2), 0⟩ :: faces)
      | .err e => .err e
      | .crash => .crash
    | _, _, _ => .crash
  | _ => .err .IncompatiblePrimitiveTopology

/-- Embeds the triangle-strip loop of `extract_mesh`: `tuple_windows`
enumerated from `k`; even windows keep `(v0, v1, v2)`, odd windows swap to
`(v1, v0, v2)` (`id & 1 == 0` test); out-of-bounds vertex lookup panics. -/
def stripGo (verts : List GpuVertex) : ℕ → List ℕ → ExtractResult (List GpuPrimitive)
  | _, [] => .ok []
  | k, v0 :: rest =>
    match rest with
    | v1 :: v2 :: _ =>
      let w := if k % 2 = 0 then (v0, v1, v2) else (v1, v0, v2)
      match verts[w.1]?, verts[w.2.1]?, verts[w.2.2]? with
      | some a, some b, some c =>
        match stripGo verts (k + 1) rest with
        | .ok faces =>
          .ok (⟨(a.position, b.position, c.position), w, 0⟩ :: faces)
        | .err e => .err e
        | .crash => .crash
      | _, _, _ => .crash
    | _ => .ok []

/-- Embeds the triangle-strip branch of `extract_mesh` (windows enumerated
from 0). -/
def stripFaces (verts : List GpuVertex) (idx : List ℕ) :
    ExtractResult (List GpuPrimitive) :=
  stripGo verts 0 idx

/-- Embeds the topology `match` of `extract_mesh`. -/
def facesOf (verts : List GpuVertex) (idx : List ℕ) :
    PrimitiveTopology → ExtractResult (List GpuPrimitive)
  | .TriangleList => listFaces verts idx
  | .TriangleStrip => stripFaces verts idx
  | _ => .err .IncompatiblePrimitiveTopology

/-- Embeds the attribute checks of `extract_mesh` (`ok_or` chains). -/
def meshVertices (m : MeshDescr) : ExtractResult (List GpuVertex) :=
  match m.positions? with
  | none => .err .MissAttributePosition
  | some ps =>
    match m.normals? with
    | none => .err .MissAttributeNormal
    | some ns =>
      match m.uvs? with
      | none => .err .MissAttributeUV
      | some uvs => .ok (mkVertices ps ns uvs)

/-- Axis-aligned bounding box. -/
structure Aabb where
  min : Vec3
  max : Vec3
  deriving DecidableEq, Repr

/-- Componentwise minimum. -/
def vmin (a b : Vec3) : Vec3 :=
  ⟨min a.x b.x, min a.y b.y, min a.z b.z⟩

/-- Componentwise maximum. -/
def vmax (a b : Vec3) : Vec3 :=
  ⟨max a.x b.x, max a.y b.y, max a.z b.z⟩

/-- Embeds `impl Bounded for GpuPrimitive`: the empty box grown by the three
vertex positions, i.e. componentwise min/max of the three points. -/
def primAabb (p : GpuPrimitive) : Aabb :=
  ⟨vmin p.vertices.1 (vmin p.vertices.2.1 p.vertices.2.2),
   vmax p.vertices.1 (vmax p.vertices.2.1 p.vertices.2.2)⟩

/-- Union (join) of two bounding boxes. -/
def aabbUnion (a b : Aabb) : Aabb :=
  ⟨vmin a.min b.min, vmax a.max b.max⟩

/-- Joint bounding box of a primitive list (arbitrary value on `[]`,
which the builder never uses). -/
def listAabb : List GpuPrimitive → Aabb
  | [] => ⟨⟨0, 0, 0⟩, ⟨0, 0, 0⟩⟩
  | p :: rest => rest.foldl (fun a q => aabbUnion a (primAabb q)) (primAabb p)

/-- Modelled from the spec: maximum number of primitives a BVH leaf holds
(§4.2 "split until leaves hold a small bounded number of primitives"; §8
scenario: "2 primitives fit the minimum leaf size"). -/
def leafSize : ℕ := 2

/-- Modelled from the spec: sentinel `entry_index` marking a leaf node
(§4.2: leaves carry `face_index`, not a child jump), `u32::MAX`. -/
def leafSentinel : ℕ := 4294967295

/-- Modelled from the spec: the BVH Builder/Flattener of §4.2, which in the
source is the external `bvh` crate (`BVH::build` + `flatten_custom`), absent
from `src/`. Depth-first layout: a subtree rooted at slot `slotBase` over
`prims` (whose first primitive has mesh-local face index `faceBase`) yields
its node list plus the primitives annotated with their leaf slot
(`node_index`, the `BHShape::set_bh_node_index` write-back). At most
`leafSize` primitives form a leaf (`entry_index` the leaf sentinel,
`exit_index` the next slot after the subtree, `face_index` the start of the
leaf's contiguous primitive run); larger inputs are median-split, the
internal node's `entry_index` pointing at its first child and `exit_index`
past its subtree (the root's miss path exits past the end). Deterministic by
construction (§4.2 determinism requirement). The first argument is
structural-recursion fuel; the zero-fuel fallback is never reached when the
fuel is at least the primitive count. -/
def bvhBuildF : ℕ → List GpuPrimitive → ℕ → ℕ →
    List GpuNode × List GpuPrimitive
  | 0, prims, slotBase, faceBase =>
    ([⟨(listAabb prims).min, (listAabb prims).max, leafSentinel,
       slotBase + 1, faceBase⟩],
     prims.map fun p => { p with node_index := slotBase })
  | fuel + 1, prims, slotBase, faceBase =>
    if prims.length ≤ leafSize then
      ([⟨(listAabb prims).min, (listAabb prims).max, leafSentinel,
         slotBase + 1, faceBase⟩],
       prims.map fun p => { p with node_index := slotBase })
    else
      let half := prims.length / 2
      let left := bvhBuildF fuel (prims.take half) (slotBase + 1) faceBase
      let right := bvhBuildF fuel (prims.drop half)
        (slotBase + 1 + left.1.length) (faceBase + half)
      (⟨(listAabb prims).min, (listAabb prims).max, slotBase + 1,
        slotBase + 1 + left.1.length + right.1.length, 0⟩ ::
        (left.1 ++ right.1),
       left.2 ++ right.2)

/-- Modelled from the spec: the builder entry point; `prims.length` is
always enough fuel since each split strictly shrinks the primitive list. -/
def bvhBuild (prims : List GpuPrimitive) (slotBase faceBase : ℕ) :
    List GpuNode × List GpuPrimitive :=
  bvhBuildF prims.length prims slotBase faceBase

/-- Modelled from the spec: `BVH::build(&mut faces)` followed by
`flatten_custom` — returns the flattened node array and the primitives with
`node_index` assigned; an empty primitive list yields empty arrays. -/
def bvhFlatten (faces : List GpuPrimitive) : List GpuNode × List GpuPrimitive :=
  match faces with
  | [] => ([], [])
  | _ => bvhBuild faces 0 0

/-- Embeds `extract_mesh` of `src/mesh.rs` end to end: attribute checks,
vertex zip, index defaulting, topology-directed face building, then the BVH
build/flatten stage (spec-modelled, see `bvhBuild`). -/
def extract_mesh (m : MeshDescr) : ExtractResult BindlessMesh :=
  match meshVertices m with
  | .err e => .err e
  | .crash => .crash
  | .ok verts =>
    match facesOf verts (effIndices verts m.indices?) m.topology with
    | .err e => .err e
    | .crash => .crash
    | .ok faces =>
      let nf := bvhFlatten faces
      .ok ⟨verts, nf.2, nf.1⟩

/-- Embeds bevy's `AssetEvent<Mesh>`; mesh identities (`Handle<Mesh>`)
are modelled as naturals. -/
inductive AssetEvent where
  | Created (handle : ℕ)
  | Modified (handle : ℕ)
  | Removed (handle : ℕ)
  deriving DecidableEq, Repr

/-- State of the change-tracking loop of `extract_bindless_meshes`:
`changed` models the `HashSet` `changed_assets` (kept duplicate-free, only
membership is meaningful), `removed` the `Vec` `removed`. -/
structure TrackerOut where
  changed : List ℕ
  removed : List ℕ
  deriving DecidableEq, Repr

/-- One step of the event loop of `extract_bindless_meshes`:
Created/Modified insert into the changed set; Removed deletes from the
changed set and pushes onto the removed list. `HashSet::insert` is modelled
as append-if-absent and `HashSet::remove` as filtering the identity out
(equivalent on duplicate-free lists). -/
def trackStep (s : TrackerOut) : AssetEvent → TrackerOut
  | .Created h | .Modified h =>
    { s with changed := if h ∈ s.changed then s.changed else s.changed ++ [h] }
  | .Removed h =>
    { changed := s.changed.filter (fun x => x ≠ h),
      removed := s.removed ++ [h] }

/-- Embeds the event loop of `extract_bindless_meshes` over one tick's
batch. -/
def trackEvents (events : List AssetEvent) : TrackerOut :=
  events.foldl trackStep ⟨[], []⟩

/-- Embeds the extraction loop of `extract_bindless_meshes`: for each
changed identity, look the asset up and extract it; an `Err` from
`extract_mesh` (or a missing asset) skips the identity (`.ok()` →
`and_then`), while a panic propagates. -/
def collectExtracted (assets : ℕ → Option MeshDescr) :
    List ℕ → ExtractResult (List (ℕ × BindlessMesh))
  | [] => .ok []
  | h :: rest =>
    match assets h with
    | none => collectExtracted assets rest
    | some m =>
      match extract_mesh m with
      | .ok bm =>
        match collectExtracted assets rest with
        | .ok l => .ok ((h, bm) :: l)
        | .err e => .err e
        | .crash => .crash
      | .err _ => collectExtracted assets rest
      | .crash => .crash

/-- Embeds `ExtractedBindlessMeshes` of `src/mesh.rs`. -/
structure ExtractedBindlessMeshes where
  extracted : List (ℕ × BindlessMesh)
  removed : List ℕ
  deriving DecidableEq, Repr

/-- Embeds `extract_bindless_meshes` of `src/mesh.rs`: reduce the event
batch, extract every changed identity that still resolves to an asset, and
hand the result to the prepare phase. -/
def extract_bindless_meshes (events : List AssetEvent)
    (assets : ℕ → Option MeshDescr) : ExtractResult ExtractedBindlessMeshes :=
  let t := trackEvents events
  match collectExtracted assets t.changed with
  | .ok l => .ok ⟨l, t.removed⟩
  | .err e => .err e
  | .crash => .crash

/-- Embeds `BindlessMeshes` of `src/mesh.rs` (a `BTreeMap<Handle<Mesh>,
BindlessMesh>`): an association list kept sorted by key. Insert for a
`BTreeMap`: replace the entry when the key is present, otherwise place the
new entry at its ordered position. -/
def rinsert (id : ℕ) (v : BindlessMesh) :
    List (ℕ × BindlessMesh) → List (ℕ × BindlessMesh)
  | [] => [(id, v)]
  | (k, w) :: rest =>
    if id < k then (id, v) :: (k, w) :: rest
    else if id = k then (id, v) :: rest
    else (k, w) :: rinsert id v rest

/-- Embeds `BTreeMap::remove`: drop the entry with the given key (first
match; the sorted registry holds each key at most once). -/
def rremove (id : ℕ) : List (ℕ × BindlessMesh) → List (ℕ × BindlessMesh)
  | [] => []
  | (k, w) :: rest => if k = id then rest else (k, w) :: rremove id rest

/-- Embeds `BTreeMap::get` on the registry. -/
def rlookup (id : ℕ) : List (ℕ × BindlessMesh) → Option BindlessMesh
  | [] => none
  | (k, w) :: rest => if k = id then some w else rlookup id rest

/-- Registry well-formedness: the `BTreeMap` iterates its entries in
strictly ascending key order. -/
def RegSorted (l : List (ℕ × BindlessMesh)) : Prop :=
  l.Pairwise fun a b => a.1 < b.1

instance (l : List (ℕ × BindlessMesh)) : Decidable (RegSorted l) := by
  unfold RegSorted
  infer_instance

/-- Embeds `GpuBindlessMesh` of `src/mesh.rs` (the per-mesh offset
record). -/
structure GpuBindlessMesh where
  vertex_offset : ℕ
  primitive_offset : ℕ
  node_offset : ℕ
  deriving DecidableEq, Repr

/-- Embeds `RenderBindlessMeshes` (a `HashMap<Handle<Mesh>,
GpuBindlessMesh>`): insertion-ordered association list; only lookup is
meaningful. `HashMap::insert` replaces the value in place when the key is
present. -/
def rmInsert (id : ℕ) (v : GpuBindlessMesh) :
    List (ℕ × GpuBindlessMesh) → List (ℕ × GpuBindlessMesh)
  | [] => [(id, v)]
  | (k, w) :: rest =>
    if k = id then (id, v) :: rest else (k, w) :: rmInsert id v rest

/-- Embeds `HashMap::get` on the offset-record map. -/
def rmLookup (id : ℕ) : List (ℕ × GpuBindlessMesh) → Option GpuBindlessMesh
  | [] => none
  | (k, w) :: rest => if k = id then some w else rmLookup id rest

/-- Embeds `BindlessMeshMeta`: the three CPU-side global buffers backing the
GPU storage buffers. -/
structure BindlessMeshMeta where
  vertex_buffer : List GpuVertex
  primitive_buffer : List GpuPrimitive
  node_buffer : List GpuNode
  deriving DecidableEq, Repr

/-- The empty global buffers (state after the three `clear()` calls). -/
def emptyMeta : BindlessMeshMeta := ⟨[], [], []⟩

/-- Embeds the packing loop of `prepare_bindless_meshes`: iterate the
registry in order; for each mesh record the current buffer lengths as its
offsets, append its vertices/primitives/nodes, and insert the offset record
into the render map. -/
def packMeshes : List (ℕ × BindlessMesh) → BindlessMeshMeta →
    List (ℕ × GpuBindlessMesh) → BindlessMeshMeta × List (ℕ × GpuBindlessMesh)
  | [], meta, rm => (meta, rm)
  | (id, mesh) :: rest, meta, rm =>
    packMeshes rest
      ⟨meta.vertex_buffer ++ mesh.vertices,
       meta.primitive_buffer ++ mesh.primitives,
       meta.node_buffer ++ mesh.nodes⟩
      (rmInsert id ⟨meta.vertex_buffer.length, meta.primitive_buffer.length,
        meta.node_buffer.length⟩ rm)

/-- The render-world state `prepare_bindless_meshes` mutates: global
buffers, registry, and the consumer-facing offset map. -/
structure PrepareState where
  meta : BindlessMeshMeta
  meshes : List (ℕ × BindlessMesh)
  render_meshes : List (ℕ × GpuBindlessMesh)
  deriving DecidableEq, Repr

/-- Embeds `prepare_bindless_meshes` of `src/mesh.rs`. The drained
`extracted` entries are inserted into the registry, then the drained
`removed` handles are evicted; either loop having run sets `dirty`. When
dirty, the three global buffers are cleared and repacked from the registry
and the buffers are written to the device; the returned flag records whether
the device upload (`write_buffer` calls) happened. -/
def prepare_bindless_meshes (ex : ExtractedBindlessMeshes) (s : PrepareState) :
    PrepareState × Bool :=
  let dirty := !ex.extracted.isEmpty || !ex.removed.isEmpty
  let reg1 := ex.extracted.foldl (fun acc p => rinsert p.1 p.2 acc) s.meshes
  let reg2 := ex.removed.foldl (fun acc h => rremove h acc) reg1
  if dirty then
    let packed := packMeshes reg2 emptyMeta s.render_meshes
    (⟨packed.1, reg2, packed.2⟩, true)
  else
    (s, false)

/-- One whole tick of the pipeline: the extract phase feeding the prepare
phase (a panic during extraction propagates). -/
def tick (events : List AssetEvent) (assets : ℕ → Option MeshDescr)
    (s : PrepareState) : ExtractResult (PrepareState × Bool) :=
  match extract_bindless_meshes events assets with
  | .ok ex => .ok (prepare_bindless_meshes ex s)
  | .err e => .err e
  | .crash => .crash

/-- Projection of a primitive to the data the extractor computed (dropping
the builder-owned `node_index` back-reference). -/
def primData (p : GpuPrimitive) : (Vec3 × Vec3 × Vec3) × (ℕ × ℕ × ℕ) :=
  (p.vertices, p.indices)

/-- Position of the vertex at a local index (defaulted lookup; the claims
only use it at in-bounds indices). -/
def posAt (verts : List GpuVertex) (i : ℕ) : Vec3 :=
  (verts.getD i ⟨⟨0, 0, 0⟩, ⟨0, 0, 0⟩, ⟨0, 0⟩⟩).position

/-- Spec-side description (§4.1, §8): an index list consumed in consecutive,
non-overlapping groups of three, any trailing shorter group dropped. -/
def specListGroups : List ℕ → List (ℕ × ℕ × ℕ)
  | a :: b :: c :: rest => (a, b, c) :: specListGroups rest
  | _ => []

/-- Whether an event marks the identity as changed (Created or Modified). -/
def revives (e : AssetEvent) (h : ℕ) : Bool :=
  match e with
  | .Created g => g = h
  | .Modified g => g = h
  | .Removed _ => false

/-- Batch shape under which the tracker keeps its two sets disjoint: no
Created/Modified event for an identity occurs after a Removed event for the
same identity. -/
def removeLast : List AssetEvent → Bool
  | [] => true
  | .Removed h :: rest => rest.all (fun e => !revives e h) && removeLast rest
  | _ :: rest => removeLast rest

/-- Sum of the vertex counts of the compiled meshes of a registry
fragment. -/
def totalVertices (l : List (ℕ × BindlessMesh)) : ℕ :=
  (l.map fun p => p.2.vertices.length).sum

/-- Sum of the primitive counts of the compiled meshes of a registry
fragment. -/
def totalPrimitives (l : List (ℕ × BindlessMesh)) : ℕ :=
  (l.map fun p => p.2.primitives.length).sum

/-- Sum of the node counts of the compiled meshes of a registry
fragment. -/
def totalNodes (l : List (ℕ × BindlessMesh)) : ℕ :=
  (l.map fun p => p.2.nodes.length).sum

/-- The §8 scenario mesh: unit quad, triangle-list, explicit indices
`[0,1,2,0,2,3]`. -/
def quadMesh : MeshDescr :=
  { positions? := some [⟨0, 0, 0⟩, ⟨1, 0, 0⟩, ⟨1, 1, 0⟩, ⟨0, 1, 0⟩],
    normals? := some [⟨0, 0, 1⟩, ⟨0, 0, 1⟩, ⟨0, 0, 1⟩, ⟨0, 0, 1⟩],
    uvs? := some [⟨0, 0⟩, ⟨1, 0⟩, ⟨1, 1⟩, ⟨0, 1⟩],
    indices? := some [0, 1, 2, 0, 2, 3],
    topology := .TriangleList }

/-- A triangle-list mesh with 3 vertices whose index list holds the
out-of-bounds entry 5 inside a trailing incomplete group of three. -/
def oobTrailingMesh : MeshDescr :=
  { positions? := some [⟨0, 0, 0⟩, ⟨1, 0, 0⟩, ⟨1, 1, 0⟩],
    normals? := some [⟨0, 0, 1⟩, ⟨0, 0, 1⟩, ⟨0, 0, 1⟩],
    uvs? := some [⟨0, 0⟩, ⟨1, 0⟩, ⟨1, 1⟩],
    indices? := some [0, 1, 2, 5],
    topology := .TriangleList }

/-- An otherwise valid triangle whose normal attribute is missing. -/
def noNormalsMesh : MeshDescr :=
  { positions? := some [⟨0, 0, 0⟩, ⟨1, 0, 0⟩, ⟨1, 1, 0⟩],
    normals? := none,
    uvs? := some [⟨0, 0⟩, ⟨1, 0⟩, ⟨1, 1⟩],
    indices? := some [0, 1, 2],
    topology := .TriangleList }

/-- A concrete vertex used to build small registry fixtures. -/
def wVertex : GpuVertex := ⟨⟨0, 0, 0⟩, ⟨0, 0, 1⟩, ⟨0, 0⟩⟩

/-- A concrete primitive used to build small registry fixtures. -/
def wPrim : GpuPrimitive := ⟨(⟨0, 0, 0⟩, ⟨0, 0, 0⟩, ⟨0, 0, 0⟩), (0, 1, 2), 0⟩

/-- A concrete node used to build small registry fixtures. -/
def wNode : GpuNode := ⟨⟨0, 0, 0⟩, ⟨0, 0, 0⟩, 0, 1, 0⟩

/-- Compiled-mesh fixture A of the §8 packing scenario: 4 vertices, 2
primitives, 1 node. -/
def meshA : BindlessMesh :=
  ⟨[wVertex, wVertex, wVertex, wVertex], [wPrim, wPrim], [wNode]⟩

/-- Compiled-mesh fixture B of the §8 packing scenario: 3 vertices, 3
primitives, 1 node. -/
def meshB : BindlessMesh :=
  ⟨[wVertex, wVertex, wVertex], [wPrim, wPrim, wPrim], [wNode]⟩

/-! Theorems. -/

theorem track_disjoint_aux (es : List AssetEvent) :
    ∀ s : TrackerOut, removeLast es = true →
      (∀ x ∈ s.changed, x ∉ s.removed) →
      (∀ x ∈ s.removed, ∀ e ∈ es, revives e x = false) →
      ∀ x ∈ (es.foldl trackStep s).changed, x ∉ (es.foldl trackStep s).removed := by
  induction es with
  | nil => intro s _ hdisj _; exact hdisj
  | cons e rest ih =>
    intro s hrl hdisj hrm
    simp only [List.foldl_cons]
    cases e with
    | Created h =>
      apply ih
      · simpa [removeLast] using hrl
      · intro x hx
        simp only [trackStep] at hx
        by_cases hmem : h ∈ s.changed
        · simp only [if_pos hmem] at hx
          exact hdisj x hx
        · simp only [if_neg hmem, List.mem_append, List.mem_singleton] at hx
          rcases hx with hx | hx
          · exact hdisj x hx
          · subst hx
            intro hxr
            have hrev := hrm x hxr (.Created x) (by simp)
            simp [revives] at hrev
      · intro x hxr e he
        simp only [trackStep] at hxr
        exact hrm x hxr e (List.mem_cons_of_mem _ he)
    | Modified h =>
      apply ih
      · simpa [removeLast] using hrl
      · intro x hx
        simp only [trackStep] at hx
        by_cases hmem : h ∈ s.changed
        · simp only [if_pos hmem] at hx
          exact hdisj x hx
        · simp only [if_neg hmem, List.mem_append, List.mem_singleton] at hx
          rcases hx with hx | hx
          · exact hdisj x hx
          · subst hx
            intro hxr
            have hrev := hrm x hxr (.Modified x) (by simp)
            simp [revives] at hrev
      · intro x hxr e he
        simp only [trackStep] at hxr
        exact hrm x hxr e (List.mem_cons_of_mem _ he)
    | Removed h =>
      have hrl2 : (rest.all fun e => !revives e h) = true ∧ removeLast rest = true := by
        simpa [removeLast, Bool.and_eq_true] using hrl
      apply ih
      · exact hrl2.2
      · intro x hx
        simp only [trackStep, List.mem_filter, decide_eq_true_eq] at hx
        obtain ⟨hxc, hxh⟩ := hx
        intro hxr
        simp only [trackStep, List.mem_append, List.mem_singleton] at hxr
        rcases hxr with hxr | hxr
        · exact hdisj x hxc hxr
        · exact hxh hxr
      · intro x hxr e he
        simp only [trackStep, List.mem_append, List.mem_singleton] at hxr
        rcases hxr with hxr | hxr
        · exact hrm x hxr e (List.mem_cons_of_mem _ he)
        · subst hxr
          have hall := List.all_eq_true.mp hrl2.1 e he
          simpa using hall

/-- C5 (counterexample): for the concrete batch `[Removed 0, Created 0]`
the tracker's resulting sets are not disjoint — identity 0 ends up both in
`changed` (the Created re-inserts it) and in `removed` (the Removed pushed
it and nothing ever deletes from `removed`), refuting the claimed
disjointness for every interleaving of events. -/
theorem c5_counterexample :
    0 ∈ (trackEvents [.Removed 0, .Created 0]).changed ∧
    0 ∈ (trackEvents [.Removed 0, .Created 0]).removed := by
  decide

/-- C5 (amended): for every batch in which no Created/Modified event for an
identity follows a Removed event for the same identity, the tracker's
resulting changed and removed sets are disjoint; and unconditionally, a
Removed event removes its identity from `changed` and adds it to `removed`
(removal wins over a pending creation that precedes it in the batch). -/
theorem c5_tracker_disjoint (events : List AssetEvent)
    (hrl : removeLast events = true) :
    (∀ x ∈ (trackEvents events).changed, x ∉ (trackEvents events).removed) ∧
    ∀ (s : TrackerOut) (h : ℕ),
      h ∉ (trackStep s (.Removed h)).changed ∧
      h ∈ (trackStep s (.Removed h)).removed := by
  constructor
  · exact track_disjoint_aux events ⟨[], []⟩ hrl (by simp) (by simp)
  · intro s h
    constructor
    · simp [trackStep, List.mem_filter]
    · simp [trackStep]

/-- Witness for C5 (amended) at the batch `[Created 0, Modified 0,
Removed 0]`. -/
theorem c5_tracker_disjoint_witness :
    removeLast [.Created 0, .Modified 0, .Removed 0] = true ∧
    ∀ x ∈ (trackEvents [.Created 0, .Modified 0, .Removed 0]).changed,
      x ∉ (trackEvents [.Created 0, .Modified 0, .Removed 0]).removed :=
  ⟨by decide, (c5_tracker_disjoint _ (by decide)).1⟩

/-- C4: extraction of the §8 quad scenario mesh (4 positions, normals all
`(0,0,1)`, uvs, explicit indices `[0,1,2,0,2,3]`, triangle-list topology)
yields exactly 4 vertices, exactly 2 primitives, and a single leaf node
whose bounding box is `min = (0,0,0)`, `max = (1,1,0)`. -/
theorem c4_quad_scenario :
    ∃ bm, extract_mesh quadMesh = .ok bm ∧ bm.vertices.length = 4 ∧
      bm.primitives.length = 2 ∧
      bm.nodes = [⟨⟨0, 0, 0⟩, ⟨1, 1, 0⟩, leafSentinel, 1, 0⟩] := by
  refine ⟨_, rfl, ?_, ?_, ?_⟩ <;> decide

/-- C8: a tick whose event batch is empty leaves the prepare-phase state
untouched and performs no device upload; in particular running the packer a
second time with no intervening registry change leaves the three global
buffers and all offset records identical to the first run's output. -/
theorem c8_empty_batch_noop (s : PrepareState) (ex : ExtractedBindlessMeshes)
    (assets : ℕ → Option MeshDescr) :
    tick [] assets s = .ok (s, false) ∧
    prepare_bindless_meshes ⟨[], []⟩ s = (s, false) ∧
    prepare_bindless_meshes ⟨[], []⟩ (prepare_bindless_meshes ex s).1
      = ((prepare_bindless_meshes ex s).1, false) :=
  ⟨rfl, rfl, rfl⟩

/-- C10 (counterexample): the mesh `oobTrailingMesh` has 3 vertices and the
out-of-bounds index entry 5, yet extraction returns
`Err(IncompatiblePrimitiveTopology)` rather than panicking: the entry sits
in the trailing incomplete group of three, which errors before the vertex
lookup is reached. This refutes the claim that every mesh containing an
out-of-bounds index entry neither returns a `CompiledMesh` nor an error. -/
theorem c10_counterexample :
    ∃ v, meshVertices oobTrailingMesh = .ok v ∧ v.length = 3 ∧
      5 ∈ effIndices v oobTrailingMesh.indices? ∧ v.length ≤ 5 ∧
      extract_mesh oobTrailingMesh = .err .IncompatiblePrimitiveTopology := by
  refine ⟨_, rfl, ?_, ?_, ?_, ?_⟩ <;> decide

theorem listFaces_crash (verts : List GpuVertex) :
    ∀ idx : List ℕ, 3 ∣ idx.length → (∃ i ∈ idx, verts.length ≤ i) →
      listFaces verts idx = .crash
  | [], _, hex => by simp at hex
  | [a], h3, _ => by simp at h3
  | [a, b], h3, _ => by simp at h3; omega
  | a :: b :: c :: rest, h3, hex => by
    have h3r : 3 ∣ rest.length := by
      simp only [List.length_cons] at h3; omega
    by_cases ha : a < verts.length
    · by_cases hb : b < verts.length
      · by_cases hc : c < verts.length
        · have hrest : ∃ i ∈ rest, verts.length ≤ i := by
            rcases hex with ⟨i, hi, hoob⟩
            simp only [List.mem_cons] at hi
            rcases hi with rfl | rfl | rfl | hi
            · omega
            · omega
            · omega
            · exact ⟨i, hi, hoob⟩
          have ih := listFaces_crash verts rest h3r hrest
          simp [listFaces, List.getElem?_eq_getElem, ha, hb, hc, ih]
        · simp [listFaces, List.getElem?_eq_none (Nat.le_of_not_lt hc)]
      · simp [listFaces, List.getElem?_eq_none (Nat.le_of_not_lt hb)]
    · simp [listFaces, List.getElem?_eq_none (Nat.le_of_not_lt ha)]

theorem stripGo_cons_eq (verts : List GpuVertex) (k v0 v1 v2 : ℕ)
    (rest2 : List ℕ) :
    stripGo verts k (v0 :: v1 :: v2 :: rest2)
      = (match verts[(if k % 2 = 0 then (v0, v1, v2) else (v1, v0, v2)).1]?,
          verts[(if k % 2 = 0 then (v0, v1, v2) else (v1, v0, v2)).2.1]?,
          verts[(if k % 2 = 0 then (v0, v1, v2) else (v1, v0, v2)).2.2]? with
        | some a, some b, some c =>
          match stripGo verts (k + 1) (v1 :: v2 :: rest2) with
          | .ok faces =>
            .ok (⟨(a.position, b.position, c.position),
              if k % 2 = 0 then (v0, v1, v2) else (v1, v0, v2), 0⟩ :: faces)
          | .err e => .err e
          | .crash => .crash
        | _, _, _ => .crash) := rfl

theorem stripGo_crash (verts : List GpuVertex) :
    ∀ (idx : List ℕ) (k : ℕ), 3 ≤ idx.length → (∃ i ∈ idx, verts.length ≤ i) →
      stripGo verts k idx = .crash
  | [], _, hlen, _ => by simp at hlen
  | [a], _, hlen, _ => by simp at hlen
  | [a, b], _, hlen, _ => by simp at hlen
  | v0 :: v1 :: v2 :: rest2, k, _, hex => by
    by_cases ha : v0 < verts.length
    · by_cases hb : v1 < verts.length
      · by_cases hc : v2 < verts.length
        · obtain ⟨i, hi, hoob⟩ := hex
          simp only [List.mem_cons] at hi
          rcases hi with rfl | rfl | rfl | hi
          · omega
          · omega
          · omega
          · have hne : rest2 ≠ [] := by rintro rfl; simp at hi
            have hlen2 : 3 ≤ (v1 :: v2 :: rest2).length := by
              cases rest2 with
              | nil => exact absurd rfl hne
              | cons d l => simp only [List.length_cons]; omega
            have ih := stripGo_crash verts (v1 :: v2 :: rest2) (k + 1) hlen2
              ⟨i, by simp [hi], hoob⟩
            rw [stripGo_cons_eq]
            by_cases hk : k % 2 = 0 <;>
              simp [hk, List.getElem?_eq_getElem, ha, hb, hc, ih]
        · by_cases hk : k % 2 = 0 <;>
            simp [stripGo, hk, List.getElem?_eq_getElem, ha, hb,
              List.getElem?_eq_none (Nat.le_of_not_lt hc)]
      · by_cases hk : k % 2 = 0 <;>
          simp [stripGo, hk, List.getElem?_eq_getElem, ha,
            List.getElem?_eq_none (Nat.le_of_not_lt hb)]
    · by_cases hk : k % 2 = 0
      · simp [stripGo, hk, List.getElem?_eq_none (Nat.le_of_not_lt ha)]
      · by_cases hb : v1 < verts.length
        · simp [stripGo, hk, List.getElem?_eq_getElem, hb,
            List.getElem?_eq_none (Nat.le_of_not_lt ha)]
        · simp [stripGo, hk, List.getElem?_eq_none (Nat.le_of_not_lt hb)]

/-- C10 (amended): for every mesh with all attributes present whose
effective index list contains an entry at or past the vertex count,
extraction panics (returns neither a compiled mesh nor a
`BindlessMeshError`) whenever the out-of-bounds entry is actually consumed
by a triangle: for triangle-list topology when the index count is a
multiple of three, and for triangle-strip topology when there are at least
three indices. (The counterexample shows the sole exception the code
allows: a triangle-list whose index count is not a multiple of three can
fail with `IncompatiblePrimitiveTopology` before the out-of-bounds lookup
is reached.) -/
theorem c10_oob_panics (m : MeshDescr) (ps ns : List Vec3) (uvs : List Vec2)
    (verts : List GpuVertex) (idx : List ℕ)
    (hp : m.positions? = some ps) (hn : m.normals? = some ns)
    (hu : m.uvs? = some uvs)
    (hverts : verts = mkVertices ps ns uvs)
    (hidx : idx = effIndices verts m.indices?)
    (hoob : ∃ i ∈ idx, verts.length ≤ i) :
    (m.topology = .TriangleList → 3 ∣ idx.length → extract_mesh m = .crash) ∧
    (m.topology = .TriangleStrip → 3 ≤ idx.length → extract_mesh m = .crash) := by
  have hv : meshVertices m = .ok verts := by
    simp [meshVertices, hp, hn, hu, hverts]
  constructor
  · intro ht h3
    have hcr := listFaces_crash verts idx h3 hoob
    simp [extract_mesh, hv, facesOf, ht, ← hidx, hcr]
  · intro ht hlen
    have hcr := stripGo_crash verts idx 0 hlen hoob
    simp [extract_mesh, hv, facesOf, stripFaces, ht, ← hidx, hcr]

/-- Witness for C10 (amended): a 3-vertex triangle-list mesh with index
list `[0, 1, 5]` — the out-of-bounds entry 5 sits in a complete group of
three and extraction panics. -/
theorem c10_oob_panics_witness :
    (∃ i ∈ ([0, 1, 5] : List ℕ),
      (mkVertices [⟨0, 0, 0⟩, ⟨1, 0, 0⟩, ⟨0, 1, 0⟩]
        [⟨0, 0, 1⟩, ⟨0, 0, 1⟩, ⟨0, 0, 1⟩]
        [⟨0, 0⟩, ⟨0, 1⟩, ⟨1, 1⟩]).length ≤ i) ∧
    extract_mesh ⟨some [⟨0, 0, 0⟩, ⟨1, 0, 0⟩, ⟨0, 1, 0⟩],
      some [⟨0, 0, 1⟩, ⟨0, 0, 1⟩, ⟨0, 0, 1⟩],
      some [⟨0, 0⟩, ⟨0, 1⟩, ⟨1, 1⟩], some [0, 1, 5],
      .TriangleList⟩ = .crash :=
  ⟨by decide,
    (c10_oob_panics _ _ _ _ _ _ rfl rfl rfl rfl rfl (by decide)).1 rfl
      (by decide)⟩

theorem specListGroups_length :
    ∀ idx : List ℕ, (specListGroups idx).length = idx.length / 3
  | [] => rfl
  | [_] => by simp [specListGroups]
  | [_, _] => by simp [specListGroups]
  | a :: b :: c :: rest => by
    simp only [specListGroups, List.length_cons, specListGroups_length rest]
    omega

theorem listFaces_ok (verts : List GpuVertex) :
    ∀ idx : List ℕ, (∀ i ∈ idx, i < verts.length) → 3 ∣ idx.length →
      ∃ faces, listFaces verts idx = .ok faces ∧
        faces.map GpuPrimitive.indices = specListGroups idx
  | [], _, _ => ⟨[], rfl, rfl⟩
  | [_], _, h3 => by simp at h3
  | [_, _], _, h3 => by simp at h3; omega
  | a :: b :: c :: rest, hb, h3 => by
    have ha1 : a < verts.length := hb a (by simp)
    have hb1 : b < verts.length := hb b (by simp)
    have hc1 : c < verts.length := hb c (by simp)
    have h3r : 3 ∣ rest.length := by
      simp only [List.length_cons] at h3; omega
    obtain ⟨faces, hf, hm⟩ :=
      listFaces_ok verts rest (fun i hi => hb i (by simp [hi])) h3r
    refine ⟨⟨((verts.get ⟨a, ha1⟩).position, (verts.get ⟨b, hb1⟩).position,
      (verts.get ⟨c, hc1⟩).position), (a, b, c), 0⟩ :: faces, ?_, ?_⟩
    · simp [listFaces, List.getElem?_eq_getElem, ha1, hb1, hc1, hf]
    · simp [specListGroups, hm]

theorem listFaces_err (verts : List GpuVertex) :
    ∀ idx : List ℕ, (∀ i ∈ idx, i < verts.length) → ¬3 ∣ idx.length →
      listFaces verts idx = .err .IncompatiblePrimitiveTopology
  | [], _, h3 => by simp at h3
  | [_], _, _ => rfl
  | [_, _], _, _ => rfl
  | a :: b :: c :: rest, hb, h3 => by
    have ha1 : a < verts.length := hb a (by simp)
    have hb1 : b < verts.length := hb b (by simp)
    have hc1 : c < verts.length := hb c (by simp)
    have h3r : ¬3 ∣ rest.length := by
      simp only [List.length_cons] at h3 ⊢
      omega
    have ih := listFaces_err verts rest (fun i hi => hb i (by simp [hi])) h3r
    simp [listFaces, List.getElem?_eq_getElem, ha1, hb1, hc1, ih]

theorem bvhBuildF_map_primData :
    ∀ (fuel : ℕ) (prims : List GpuPrimitive) (s f : ℕ),
      ((bvhBuildF fuel prims s f).2).map primData = prims.map primData
  | 0, prims, s, f => by
    simp only [bvhBuildF, List.map_map]
    rfl
  | fuel + 1, prims, s, f => by
    by_cases h : prims.length ≤ leafSize
    · simp only [bvhBuildF, if_pos h, List.map_map]
      rfl
    · simp only [bvhBuildF, if_neg h]
      rw [List.map_append,
        bvhBuildF_map_primData fuel (prims.take (prims.length / 2)) (s + 1) f,
        bvhBuildF_map_primData fuel (prims.drop (prims.length / 2)) _ _,
        ← List.map_append, List.take_append_drop]

theorem bvhFlatten_map_primData (faces : List GpuPrimitive) :
    ((bvhFlatten faces).2).map primData = faces.map primData := by
  cases faces with
  | nil => rfl
  | cons p rest => exact bvhBuildF_map_primData _ _ _ _

theorem bvhFlatten_length (faces : List GpuPrimitive) :
    (bvhFlatten faces).2.length = faces.length := by
  have h := congrArg List.length (bvhFlatten_map_primData faces)
  simpa using h

theorem bvhFlatten_map_indices (faces : List GpuPrimitive) :
    (bvhFlatten faces).2.map GpuPrimitive.indices
      = faces.map GpuPrimitive.indices := by
  have h := congrArg (List.map Prod.snd) (bvhFlatten_map_primData faces)
  rw [List.map_map, List.map_map] at h
  exact h

theorem bvhFlatten_map_vertices (faces : List GpuPrimitive) :
    (bvhFlatten faces).2.map GpuPrimitive.vertices
      = faces.map GpuPrimitive.vertices := by
  have h := congrArg (List.map Prod.fst) (bvhFlatten_map_primData faces)
  rw [List.map_map, List.map_map] at h
  exact h

/-- C2: for every mesh with triangle-list topology, all required attributes
present, and in-range indices, extraction succeeds with exactly
`index_count / 3` primitives when the index count is a multiple of three —
the indices being consumed in consecutive, non-overlapping groups of three
(`specListGroups`) — and fails with `IncompatiblePrimitiveTopology` when the
index count is not a multiple of three. -/
theorem c2_triangle_list (m : MeshDescr) (ps ns : List Vec3) (uvs : List Vec2)
    (verts : List GpuVertex) (idx : List ℕ)
    (hp : m.positions? = some ps) (hn : m.normals? = some ns)
    (hu : m.uvs? = some uvs) (ht : m.topology = .TriangleList)
    (hverts : verts = mkVertices ps ns uvs)
    (hidx : idx = effIndices verts m.indices?)
    (hb : ∀ i ∈ idx, i < verts.length) :
    (3 ∣ idx.length → ∃ bm, extract_mesh m = .ok bm ∧
      bm.primitives.length = idx.length / 3 ∧
      bm.primitives.map GpuPrimitive.indices = specListGroups idx) ∧
    (¬3 ∣ idx.length → extract_mesh m = .err .IncompatiblePrimitiveTopology) := by
  have hv : meshVertices m = .ok verts := by
    simp [meshVertices, hp, hn, hu, hverts]
  constructor
  · intro h3
    obtain ⟨faces, hf, hm⟩ := listFaces_ok verts idx hb h3
    refine ⟨⟨verts, (bvhFlatten faces).2, (bvhFlatten faces).1⟩, ?_, ?_, ?_⟩
    · simp [extract_mesh, hv, facesOf, ht, ← hidx, hf]
    · rw [show (⟨verts, (bvhFlatten faces).2, (bvhFlatten faces).1⟩ :
        BindlessMesh).primitives = (bvhFlatten faces).2 from rfl,
        bvhFlatten_length]
      have hl := congrArg List.length hm
      simpa [specListGroups_length] using hl
    · rw [show (⟨verts, (bvhFlatten faces).2, (bvhFlatten faces).1⟩ :
        BindlessMesh).primitives = (bvhFlatten faces).2 from rfl,
        bvhFlatten_map_indices, hm]
  · intro h3
    have he := listFaces_err verts idx hb h3
    simp [extract_mesh, hv, facesOf, ht, ← hidx, he]

/-- Witness for C2 at a single in-range triangle `[0, 1, 2]` over three
vertices. -/
theorem c2_triangle_list_witness :
    (∀ i ∈ ([0, 1, 2] : List ℕ),
      i < (mkVertices [⟨0, 0, 0⟩, ⟨1, 0, 0⟩, ⟨0, 1, 0⟩]
        [⟨0, 0, 1⟩, ⟨0, 0, 1⟩, ⟨0, 0, 1⟩]
        [⟨0, 0⟩, ⟨0, 1⟩, ⟨1, 1⟩]).length) ∧
    3 ∣ ([0, 1, 2] : List ℕ).length ∧
    ∃ bm, extract_mesh ⟨some [⟨0, 0, 0⟩, ⟨1, 0, 0⟩, ⟨0, 1, 0⟩],
      some [⟨0, 0, 1⟩, ⟨0, 0, 1⟩, ⟨0, 0, 1⟩],
      some [⟨0, 0⟩, ⟨0, 1⟩, ⟨1, 1⟩], some [0, 1, 2],
      .TriangleList⟩ = .ok bm ∧
      bm.primitives.length = ([0, 1, 2] : List ℕ).length / 3 ∧
      bm.primitives.map GpuPrimitive.indices = specListGroups [0, 1, 2] :=
  ⟨by decide, by decide,
    (c2_triangle_list _ _ _ _ _ _ rfl rfl rfl rfl rfl rfl (by decide)).1
      (by decide)⟩

theorem stripGo_ok (verts : List GpuVertex) :
    ∀ (idx : List ℕ) (k : ℕ), (∀ i ∈ idx, i < verts.length) →
      ∃ faces, stripGo verts k idx = .ok faces ∧
        faces.length = idx.length - 2 ∧
        ∀ j (hj : j + 2 < idx.length),
          ∃ w : ℕ × ℕ × ℕ,
            w = (if (k + j) % 2 = 0
              then (idx.get ⟨j, by omega⟩, idx.get ⟨j + 1, by omega⟩,
                idx.get ⟨j + 2, hj⟩)
              else (idx.get ⟨j + 1, by omega⟩, idx.get ⟨j, by omega⟩,
                idx.get ⟨j + 2, hj⟩)) ∧
            faces[j]? = some ⟨(posAt verts w.1, posAt verts w.2.1,
              posAt verts w.2.2), w, 0⟩
  | [], _, _ => ⟨[], rfl, rfl, fun _ hj => absurd hj (by simp)⟩
  | [_], _, _ => ⟨[], rfl, rfl, fun _ hj => absurd hj (by simp)⟩
  | [_, _], _, _ => ⟨[], rfl, rfl, fun _ hj => absurd hj (by simp)⟩
  | v0 :: v1 :: v2 :: rest2, k, hbnd => by
    have h0 : v0 < verts.length := hbnd v0 (by simp)
    have h1 : v1 < verts.length := hbnd v1 (by simp)
    have h2 : v2 < verts.length := hbnd v2 (by simp)
    obtain ⟨faces, hf, hlen, hcontent⟩ :=
      stripGo_ok verts (v1 :: v2 :: rest2) (k + 1)
        (fun i hi => hbnd i (by simp [hi]))
    refine ⟨⟨(posAt verts (if k % 2 = 0 then (v0, v1, v2) else (v1, v0, v2)).1,
      posAt verts (if k % 2 = 0 then (v0, v1, v2) else (v1, v0, v2)).2.1,
      posAt verts (if k % 2 = 0 then (v0, v1, v2) else (v1, v0, v2)).2.2),
      if k % 2 = 0 then (v0, v1, v2) else (v1, v0, v2), 0⟩ :: faces,
      ?_, ?_, ?_⟩
    · rw [stripGo_cons_eq]
      by_cases hk : k % 2 = 0 <;>
        simp [hk, List.getElem?_eq_getElem, h0, h1, h2, hf, posAt,
          List.getD_eq_getElem]
    · simp only [List.length_cons] at hlen ⊢
      omega
    · intro j hj
      match j with
      | 0 =>
        refine ⟨if k % 2 = 0 then (v0, v1, v2) else (v1, v0, v2), ?_, ?_⟩
        · by_cases hk : k % 2 = 0 <;> simp [hk, List.get]
        · simp
      | j + 1 =>
        have hj2 : j + 2 < (v1 :: v2 :: rest2).length := by
          simp only [List.length_cons] at hj ⊢
          omega
        obtain ⟨w, hw, hfj⟩ := hcontent j hj2
        refine ⟨w, ?_, ?_⟩
        · rw [hw]
          have hpar : (k + 1 + j) % 2 = (k + (j + 1)) % 2 := by
            have : k + 1 + j = k + (j + 1) := by omega
            rw [this]
          rw [hpar]
          rfl
        · simpa using hfj

/-- C3: for every mesh with triangle-strip topology, all required
attributes present, and in-range indices, extraction succeeds with exactly
`n - 2` primitives for `n` indices; primitive `k` carries the window
`(idx[k], idx[k+1], idx[k+2])` when `k` is even and the swapped window
`(idx[k+1], idx[k], idx[k+2])` when `k` is odd, and its vertex positions
are exactly the positions of those (possibly swapped) indices. -/
theorem c3_triangle_strip (m : MeshDescr) (ps ns : List Vec3) (uvs : List Vec2)
    (verts : List GpuVertex) (idx : List ℕ)
    (hp : m.positions? = some ps) (hn : m.normals? = some ns)
    (hu : m.uvs? = some uvs) (ht : m.topology = .TriangleStrip)
    (hverts : verts = mkVertices ps ns uvs)
    (hidx : idx = effIndices verts m.indices?)
    (hb : ∀ i ∈ idx, i < verts.length) :
    ∃ bm, extract_mesh m = .ok bm ∧
      bm.primitives.length = idx.length - 2 ∧
      ∀ k (hk : k + 2 < idx.length),
        ∃ w : ℕ × ℕ × ℕ,
          w = (if k % 2 = 0
            then (idx.get ⟨k, by omega⟩, idx.get ⟨k + 1, by omega⟩,
              idx.get ⟨k + 2, hk⟩)
            else (idx.get ⟨k + 1, by omega⟩, idx.get ⟨k, by omega⟩,
              idx.get ⟨k + 2, hk⟩)) ∧
          bm.primitives[k]?.map GpuPrimitive.indices = some w ∧
          bm.primitives[k]?.map GpuPrimitive.vertices
            = some (posAt verts w.1, posAt verts w.2.1, posAt verts w.2.2) := by
  have hv : meshVertices m = .ok verts := by
    simp [meshVertices, hp, hn, hu, hverts]
  obtain ⟨faces, hf, hlen, hcontent⟩ := stripGo_ok verts idx 0 hb
  refine ⟨⟨verts, (bvhFlatten faces).2, (bvhFlatten faces).1⟩, ?_, ?_, ?_⟩
  · simp [extract_mesh, hv, facesOf, stripFaces, ht, ← hidx, hf]
  · rw [show (⟨verts, (bvhFlatten faces).2, (bvhFlatten faces).1⟩ :
      BindlessMesh).primitives = (bvhFlatten faces).2 from rfl,
      bvhFlatten_length, hlen]
  · intro k hk
    obtain ⟨w, hw, hfk⟩ := hcontent k hk
    have hgk := congrArg (fun l => l[k]?) (bvhFlatten_map_primData faces)
    simp only [List.getElem?_map] at hgk
    rw [hfk] at hgk
    simp only [Option.map_some'] at hgk
    refine ⟨w, ?_, ?_, ?_⟩
    · rw [hw]
      simp only [Nat.zero_add]
    · have h2 := congrArg (Option.map Prod.snd) hgk
      simp only [Option.map_map, Option.map_some'] at h2
      exact h2
    · have h3 := congrArg (Option.map Prod.fst) hgk
      simp only [Option.map_map, Option.map_some'] at h3
      exact h3

/-- Witness for C3 at a 4-index strip `[0, 1, 2, 3]` over four vertices. -/
theorem c3_triangle_strip_witness :
    (∀ i ∈ ([0, 1, 2, 3] : List ℕ),
      i < (mkVertices [⟨0, 0, 0⟩, ⟨1, 0, 0⟩, ⟨1, 1, 0⟩, ⟨0, 1, 0⟩]
        [⟨0, 0, 1⟩, ⟨0, 0, 1⟩, ⟨0, 0, 1⟩, ⟨0, 0, 1⟩]
        [⟨0, 0⟩, ⟨1, 0⟩, ⟨1, 1⟩, ⟨0, 1⟩]).length) ∧
    ∃ bm, extract_mesh ⟨some [⟨0, 0, 0⟩, ⟨1, 0, 0⟩, ⟨1, 1, 0⟩, ⟨0, 1, 0⟩],
      some [⟨0, 0, 1⟩, ⟨0, 0, 1⟩, ⟨0, 0, 1⟩, ⟨0, 0, 1⟩],
      some [⟨0, 0⟩, ⟨1, 0⟩, ⟨1, 1⟩, ⟨0, 1⟩], some [0, 1, 2, 3],
      .TriangleStrip⟩ = .ok bm ∧
      bm.primitives.length = ([0, 1, 2, 3] : List ℕ).length - 2 ∧
      ∀ k (hk : k + 2 < ([0, 1, 2, 3] : List ℕ).length),
        ∃ w : ℕ × ℕ × ℕ,
          w = (if k % 2 = 0
            then (([0, 1, 2, 3] : List ℕ).get ⟨k, by omega⟩,
              ([0, 1, 2, 3] : List ℕ).get ⟨k + 1, by omega⟩,
              ([0, 1, 2, 3] : List ℕ).get ⟨k + 2, hk⟩)
            else (([0, 1, 2, 3] : List ℕ).get ⟨k + 1, by omega⟩,
              ([0, 1, 2, 3] : List ℕ).get ⟨k, by omega⟩,
              ([0, 1, 2, 3] : List ℕ).get ⟨k + 2, hk⟩)) ∧
          bm.primitives[k]?.map GpuPrimitive.indices = some w ∧
          bm.primitives[k]?.map GpuPrimitive.vertices
            = some (posAt (mkVertices [⟨0, 0, 0⟩, ⟨1, 0, 0⟩, ⟨1, 1, 0⟩, ⟨0, 1, 0⟩]
                [⟨0, 0, 1⟩, ⟨0, 0, 1⟩, ⟨0, 0, 1⟩, ⟨0, 0, 1⟩]
                [⟨0, 0⟩, ⟨1, 0⟩, ⟨1, 1⟩, ⟨0, 1⟩]) w.1,
              posAt (mkVertices [⟨0, 0, 0⟩, ⟨1, 0, 0⟩, ⟨1, 1, 0⟩, ⟨0, 1, 0⟩]
                [⟨0, 0, 1⟩, ⟨0, 0, 1⟩, ⟨0, 0, 1⟩, ⟨0, 0, 1⟩]
                [⟨0, 0⟩, ⟨1, 0⟩, ⟨1, 1⟩, ⟨0, 1⟩]) w.2.1,
              posAt (mkVertices [⟨0, 0, 0⟩, ⟨1, 0, 0⟩, ⟨1, 1, 0⟩, ⟨0, 1, 0⟩]
                [⟨0, 0, 1⟩, ⟨0, 0, 1⟩, ⟨0, 0, 1⟩, ⟨0, 0, 1⟩]
                [⟨0, 0⟩, ⟨1, 0⟩, ⟨1, 1⟩, ⟨0, 1⟩]) w.2.2) :=
  ⟨by decide,
    c3_triangle_strip _ _ _ _ _ _ rfl rfl rfl rfl rfl rfl (by decide)⟩

theorem rmLookup_rmInsert_self (id : ℕ) (v : GpuBindlessMesh) :
    ∀ rm, rmLookup id (rmInsert id v rm) = some v
  | [] => by simp [rmInsert, rmLookup]
  | (k, w) :: rest => by
    by_cases h : k = id
    · simp [rmInsert, rmLookup, h]
    · simp [rmInsert, rmLookup, h, rmLookup_rmInsert_self id v rest]

theorem rmLookup_rmInsert_ne (x id : ℕ) (v : GpuBindlessMesh) (hne : x ≠ id) :
    ∀ rm, rmLookup x (rmInsert id v rm) = rmLookup x rm
  | [] => by simp [rmInsert, rmLookup, Ne.symm hne]
  | (k, w) :: rest => by
    by_cases h : k = id
    · subst h
      simp [rmInsert, rmLookup, Ne.symm hne]
    · simp [rmInsert, rmLookup, h, rmLookup_rmInsert_ne x id v hne rest]

theorem packMeshes_rmLookup_not_mem (x : ℕ) :
    ∀ (l : List (ℕ × BindlessMesh)) (meta : BindlessMeshMeta)
      (rm : List (ℕ × GpuBindlessMesh)), x ∉ l.map Prod.fst →
      rmLookup x (packMeshes l meta rm).2 = rmLookup x rm
  | [], _, _, _ => rfl
  | (id, mesh) :: rest, meta, rm, hx => by
    simp only [List.map_cons, List.mem_cons, not_or] at hx
    simp only [packMeshes]
    rw [packMeshes_rmLookup_not_mem x rest _ _ hx.2,
      rmLookup_rmInsert_ne x id _ hx.1 rm]

theorem packMeshes_offsets :
    ∀ (l : List (ℕ × BindlessMesh)) (meta : BindlessMeshMeta)
      (rm : List (ℕ × GpuBindlessMesh)), (l.map Prod.fst).Nodup →
      ∀ (i : ℕ) (hi : i < l.length),
        rmLookup (l.get ⟨i, hi⟩).1 (packMeshes l meta rm).2
          = some ⟨meta.vertex_buffer.length + totalVertices (l.take i),
              meta.primitive_buffer.length + totalPrimitives (l.take i),
              meta.node_buffer.length + totalNodes (l.take i)⟩
  | [], _, _, _, i, hi => absurd hi (by simp)
  | (id, mesh) :: rest, meta, rm, hnd, 0, hi => by
    have hnotin : id ∉ rest.map Prod.fst := by
      simp only [List.map_cons, List.nodup_cons] at hnd
      exact hnd.1
    simp only [packMeshes]
    rw [show ((id, mesh) :: rest).get ⟨0, hi⟩ = (id, mesh) from rfl]
    rw [packMeshes_rmLookup_not_mem id rest _ _ hnotin, rmLookup_rmInsert_self]
    simp [totalVertices, totalPrimitives, totalNodes]
  | (id, mesh) :: rest, meta, rm, hnd, i + 1, hi => by
    have hnd2 : (rest.map Prod.fst).Nodup := by
      simp only [List.map_cons, List.nodup_cons] at hnd
      exact hnd.2
    have hi2 : i < rest.length := by
      simp only [List.length_cons] at hi
      omega
    have ih := packMeshes_offsets rest
      ⟨meta.vertex_buffer ++ mesh.vertices,
        meta.primitive_buffer ++ mesh.primitives,
        meta.node_buffer ++ mesh.nodes⟩
      (rmInsert id ⟨meta.vertex_buffer.length, meta.primitive_buffer.length,
        meta.node_buffer.length⟩ rm)
      hnd2 i hi2
    simp only [packMeshes]
    rw [show ((id, mesh) :: rest).get ⟨i + 1, hi⟩ = rest.get ⟨i, hi2⟩ from rfl]
    rw [ih]
    simp only [List.take_succ_cons, totalVertices, totalPrimitives, totalNodes,
      List.map_cons, List.sum_cons, List.length_append, Option.some.injEq,
      GpuBindlessMesh.mk.injEq]
    refine ⟨by omega, by omega, by omega⟩

theorem rinsert_mem (id : ℕ) (v : BindlessMesh) :
    ∀ (l : List (ℕ × BindlessMesh)) (p : ℕ × BindlessMesh),
      p ∈ rinsert id v l → p = (id, v) ∨ p ∈ l
  | [], p, hp => by
    simp only [rinsert, List.mem_singleton] at hp
    exact Or.inl hp
  | (k, w) :: rest, p, hp => by
    simp only [rinsert] at hp
    by_cases h1 : id < k
    · rw [if_pos h1] at hp
      rcases List.mem_cons.mp hp with rfl | hp2
      · exact Or.inl rfl
      · exact Or.inr hp2
    · rw [if_neg h1] at hp
      by_cases h2 : id = k
      · rw [if_pos h2] at hp
        rcases List.mem_cons.mp hp with rfl | hp2
        · exact Or.inl rfl
        · exact Or.inr (List.mem_cons_of_mem _ hp2)
      · rw [if_neg h2] at hp
        rcases List.mem_cons.mp hp with rfl | hp2
        · exact Or.inr (List.mem_cons_self _ _)
        · rcases rinsert_mem id v rest p hp2 with h | h
          · exact Or.inl h
          · exact Or.inr (List.mem_cons_of_mem _ h)

theorem rinsert_sorted (id : ℕ) (v : BindlessMesh) :
    ∀ l, RegSorted l → RegSorted (rinsert id v l)
  | [], _ => by simp [rinsert, RegSorted]
  | (k, w) :: rest, hs => by
    rw [RegSorted, List.pairwise_cons] at hs
    by_cases h1 : id < k
    · simp only [rinsert, if_pos h1]
      rw [RegSorted, List.pairwise_cons]
      refine ⟨?_, ?_⟩
      · intro p hp
        rcases List.mem_cons.mp hp with rfl | hp2
        · exact h1
        · exact lt_trans h1 (hs.1 p hp2)
      · rw [List.pairwise_cons]
        exact ⟨hs.1, hs.2⟩
    · by_cases h2 : id = k
      · subst h2
        simp only [rinsert, if_neg h1, eq_self_iff_true, if_true]
        rw [RegSorted, List.pairwise_cons]
        exact ⟨hs.1, hs.2⟩
      · simp only [rinsert, if_neg h1, if_neg h2]
        rw [RegSorted, List.pairwise_cons]
        refine ⟨?_, rinsert_sorted id v rest hs.2⟩
        intro p hp
        rcases rinsert_mem id v rest p hp with rfl | hp2
        · omega
        · exact hs.1 p hp2

theorem rremove_sublist (id : ℕ) :
    ∀ l : List (ℕ × BindlessMesh), List.Sublist (rremove id l) l
  | [] => List.Sublist.refl []
  | (k, w) :: rest => by
    by_cases h : k = id
    · simp only [rremove, if_pos h]
      exact List.sublist_cons_self _ _
    · simp only [rremove, if_neg h]
      exact List.Sublist.cons₂ _ (rremove_sublist id rest)

theorem rremove_sorted (id : ℕ) (l : List (ℕ × BindlessMesh))
    (hs : RegSorted l) : RegSorted (rremove id l) :=
  List.Pairwise.sublist (rremove_sublist id l) hs

theorem rlookup_rinsert_self (id : ℕ) (v : BindlessMesh) :
    ∀ l, rlookup id (rinsert id v l) = some v
  | [] => by simp [rinsert, rlookup]
  | (k, w) :: rest => by
    by_cases h1 : id < k
    · simp [rinsert, rlookup, if_pos h1]
    · by_cases h2 : id = k
      · subst h2
        simp [rinsert, rlookup, if_neg h1]
      · simp [rinsert, rlookup, if_neg h1, if_neg h2, Ne.symm h2,
          rlookup_rinsert_self id v rest]

theorem rlookup_rinsert_ne (x id : ℕ) (v : BindlessMesh) (hne : x ≠ id) :
    ∀ l, rlookup x (rinsert id v l) = rlookup x l
  | [] => by simp [rinsert, rlookup, Ne.symm hne]
  | (k, w) :: rest => by
    by_cases h1 : id < k
    · simp [rinsert, rlookup, if_pos h1, Ne.symm hne]
    · by_cases h2 : id = k
      · subst h2
        simp [rinsert, rlookup, if_neg h1, Ne.symm hne]
      · simp only [rinsert, if_neg h1, if_neg h2, rlookup]
        by_cases h3 : k = x
        · simp [h3]
        · simp [h3, rlookup_rinsert_ne x id v hne rest]

theorem rlookup_rremove_ne (x id : ℕ) (hne : x ≠ id) :
    ∀ l, rlookup x (rremove id l) = rlookup x l
  | [] => rfl
  | (k, w) :: rest => by
    by_cases h : k = id
    · subst h
      simp [rremove, rlookup, Ne.symm hne]
    · simp only [rremove, if_neg h, rlookup]
      by_cases h3 : k = x
      · simp [h3]
      · simp [h3, rlookup_rremove_ne x id hne rest]

theorem foldl_rinsert_sorted :
    ∀ (ps : List (ℕ × BindlessMesh)) (acc : List (ℕ × BindlessMesh)),
      RegSorted acc →
      RegSorted (ps.foldl (fun acc p => rinsert p.1 p.2 acc) acc)
  | [], _, hs => hs
  | p :: rest, acc, hs => by
    simp only [List.foldl_cons]
    exact foldl_rinsert_sorted rest _ (rinsert_sorted p.1 p.2 acc hs)

theorem foldl_rremove_sorted :
    ∀ (hs : List ℕ) (acc : List (ℕ × BindlessMesh)), RegSorted acc →
      RegSorted (hs.foldl (fun acc h => rremove h acc) acc)
  | [], _, hsort => hsort
  | h :: rest, acc, hsort => by
    simp only [List.foldl_cons]
    exact foldl_rremove_sorted rest _ (rremove_sorted h acc hsort)

theorem foldl_rinsert_rlookup_ne (x : ℕ) :
    ∀ (ps : List (ℕ × BindlessMesh)) (acc : List (ℕ × BindlessMesh)),
      (∀ p ∈ ps, p.1 ≠ x) →
      rlookup x (ps.foldl (fun acc p => rinsert p.1 p.2 acc) acc)
        = rlookup x acc
  | [], _, _ => rfl
  | p :: rest, acc, hne => by
    simp only [List.foldl_cons]
    rw [foldl_rinsert_rlookup_ne x rest _
        (fun q hq => hne q (List.mem_cons_of_mem _ hq)),
      rlookup_rinsert_ne x p.1 p.2 (Ne.symm (hne p (List.mem_cons_self _ _)))]

theorem foldl_rremove_rlookup_ne (x : ℕ) :
    ∀ (hs : List ℕ) (acc : List (ℕ × BindlessMesh)), x ∉ hs →
      rlookup x (hs.foldl (fun acc h => rremove h acc) acc) = rlookup x acc
  | [], _, _ => rfl
  | h :: rest, acc, hx => by
    simp only [List.mem_cons, not_or] at hx
    simp only [List.foldl_cons]
    rw [foldl_rremove_rlookup_ne x rest _ hx.2,
      rlookup_rremove_ne x h hx.1 acc]

theorem regSorted_keys_nodup (l : List (ℕ × BindlessMesh))
    (hs : RegSorted l) : (l.map Prod.fst).Nodup := by
  rw [List.Nodup, List.pairwise_map]
  exact List.Pairwise.imp (fun h => Nat.ne_of_lt h) hs

theorem rremove_keys_not_mem_self (id : ℕ) :
    ∀ l : List (ℕ × BindlessMesh), RegSorted l →
      id ∉ (rremove id l).map Prod.fst
  | [], _ => by simp [rremove]
  | (k, w) :: rest, hs => by
    rw [RegSorted, List.pairwise_cons] at hs
    by_cases h : k = id
    · subst h
      simp only [rremove, eq_self_iff_true, if_true]
      intro hm
      rcases List.mem_map.mp hm with ⟨p, hp, hpk⟩
      have := hs.1 p hp
      omega
    · simp only [rremove, if_neg h, List.map_cons, List.mem_cons, not_or]
      exact ⟨fun he => h he.symm, rremove_keys_not_mem_self id rest hs.2⟩

theorem rremove_keys_mono (x id : ℕ) (l : List (ℕ × BindlessMesh))
    (hx : x ∉ l.map Prod.fst) : x ∉ (rremove id l).map Prod.fst :=
  fun hm => hx (List.Sublist.mem hm (List.Sublist.map _ (rremove_sublist id l)))

theorem foldl_rremove_keys_mono (x : ℕ) :
    ∀ (hs : List ℕ) (acc : List (ℕ × BindlessMesh)),
      x ∉ acc.map Prod.fst →
      x ∉ ((hs.foldl (fun acc h => rremove h acc) acc).map Prod.fst)
  | [], _, hx => hx
  | h :: rest, acc, hx => by
    simp only [List.foldl_cons]
    exact foldl_rremove_keys_mono x rest _ (rremove_keys_mono x h acc hx)

theorem foldl_rremove_not_mem (x : ℕ) :
    ∀ (hs : List ℕ) (acc : List (ℕ × BindlessMesh)), RegSorted acc →
      x ∈ hs →
      x ∉ ((hs.foldl (fun acc h => rremove h acc) acc).map Prod.fst)
  | [], _, _, hx => absurd hx (by simp)
  | h :: rest, acc, hsort, hx => by
    simp only [List.foldl_cons]
    by_cases hxh : x = h
    · subst hxh
      exact foldl_rremove_keys_mono x rest _
        (rremove_keys_not_mem_self x acc hsort)
    · have hxr : x ∈ rest := by
        rcases List.mem_cons.mp hx with h2 | h2
        · exact absurd h2 hxh
        · exact h2
      exact foldl_rremove_not_mem x rest _ (rremove_sorted h acc hsort) hxr

/-- C1: when the packer runs on a dirty tick (some insertion or removal was
drained), the updated registry iterates identities in strictly ascending
order, and every mesh's recorded offsets (`vertex_offset`,
`primitive_offset`, `node_offset`) equal the running totals of all prior
meshes' vertex, primitive, and node counts in registry order. -/
theorem c1_offset_monotonicity (ex : ExtractedBindlessMeshes) (s : PrepareState)
    (reg : List (ℕ × BindlessMesh)) (rm : List (ℕ × GpuBindlessMesh))
    (hs : RegSorted s.meshes)
    (hd : ex.extracted ≠ [] ∨ ex.removed ≠ [])
    (hreg : reg = ((prepare_bindless_meshes ex s).1).meshes)
    (hrm : rm = ((prepare_bindless_meshes ex s).1).render_meshes) :
    RegSorted reg ∧
    ∀ (i : ℕ) (hi : i < reg.length),
      rmLookup (reg.get ⟨i, hi⟩).1 rm
        = some ⟨totalVertices (reg.take i), totalPrimitives (reg.take i),
            totalNodes (reg.take i)⟩ := by
  have hdirty : (!ex.extracted.isEmpty || !ex.removed.isEmpty) = true := by
    rcases hd with h | h
    · cases hxe : ex.extracted with
      | nil => exact absurd hxe h
      | cons a l => simp [hxe]
    · cases hxe : ex.removed with
      | nil => exact absurd hxe h
      | cons a l => simp [hxe]
  have hsorted : RegSorted (ex.removed.foldl (fun acc h => rremove h acc)
      (ex.extracted.foldl (fun acc p => rinsert p.1 p.2 acc) s.meshes)) :=
    foldl_rremove_sorted _ _ (foldl_rinsert_sorted _ _ hs)
  have hprep : prepare_bindless_meshes ex s
      = (⟨(packMeshes (ex.removed.foldl (fun acc h => rremove h acc)
            (ex.extracted.foldl (fun acc p => rinsert p.1 p.2 acc) s.meshes))
            emptyMeta s.render_meshes).1,
          ex.removed.foldl (fun acc h => rremove h acc)
            (ex.extracted.foldl (fun acc p => rinsert p.1 p.2 acc) s.meshes),
          (packMeshes (ex.removed.foldl (fun acc h => rremove h acc)
            (ex.extracted.foldl (fun acc p => rinsert p.1 p.2 acc) s.meshes))
            emptyMeta s.render_meshes).2⟩, true) := by
    simp only [prepare_bindless_meshes, hdirty, if_true]
  have hreg2 : reg = ex.removed.foldl (fun acc h => rremove h acc)
      (ex.extracted.foldl (fun acc p => rinsert p.1 p.2 acc) s.meshes) := by
    rw [hreg, hprep]
  have hrm2 : rm = (packMeshes (ex.removed.foldl (fun acc h => rremove h acc)
      (ex.extracted.foldl (fun acc p => rinsert p.1 p.2 acc) s.meshes))
      emptyMeta s.render_meshes).2 := by
    rw [hrm, hprep]
  subst hreg2
  subst hrm2
  refine ⟨hsorted, ?_⟩
  intro i hi
  rw [packMeshes_offsets _ emptyMeta s.render_meshes
    (regSorted_keys_nodup _ hsorted) i hi]
  simp [emptyMeta]

/-- Witness for C1: the §8 packing scenario — meshes A (2 primitives,
4 vertices, 1 node) and B (3 primitives) inserted in one tick with
registry order A < B give `OffsetRecord(A) = {0,0,0}` and
`OffsetRecord(B) = {len(A.vertices), 2, len(A.nodes)}`. -/
theorem c1_offset_monotonicity_witness :
    (RegSorted (⟨⟨[], [], []⟩, [], []⟩ : PrepareState).meshes ∧
      ([(0, meshA), (1, meshB)] : List (ℕ × BindlessMesh)) ≠ []) ∧
    rmLookup (((prepare_bindless_meshes ⟨[(0, meshA), (1, meshB)], []⟩
        ⟨⟨[], [], []⟩, [], []⟩).1).meshes.get ⟨0, by decide⟩).1
      ((prepare_bindless_meshes ⟨[(0, meshA), (1, meshB)], []⟩
        ⟨⟨[], [], []⟩, [], []⟩).1).render_meshes = some ⟨0, 0, 0⟩ ∧
    rmLookup (((prepare_bindless_meshes ⟨[(0, meshA), (1, meshB)], []⟩
        ⟨⟨[], [], []⟩, [], []⟩).1).meshes.get ⟨1, by decide⟩).1
      ((prepare_bindless_meshes ⟨[(0, meshA), (1, meshB)], []⟩
        ⟨⟨[], [], []⟩, [], []⟩).1).render_meshes
      = some ⟨meshA.vertices.length, 2, meshA.nodes.length⟩ :=
  ⟨⟨by decide, by decide⟩,
    ((c1_offset_monotonicity ⟨[(0, meshA), (1, meshB)], []⟩
      ⟨⟨[], [], []⟩, [], []⟩ _ _ (by decide) (Or.inl (by decide))
      rfl rfl).2 0 (by decide)).trans (by decide),
    ((c1_offset_monotonicity ⟨[(0, meshA), (1, meshB)], []⟩
      ⟨⟨[], [], []⟩, [], []⟩ _ _ (by decide) (Or.inl (by decide))
      rfl rfl).2 1 (by decide)).trans (by decide)⟩

/-- C9: removing a mesh identity never deletes its entry from the exposed
offset map — for an identity with a packed `OffsetRecord`, after a tick
that removes it from the registry and repacks, `RenderBindlessMeshes`
still answers the stale record from the last pack that included it
(`prepare_bindless_meshes` removes from `meshes` but never from
`render_meshes`). -/
theorem c9_stale_offset_record (ex : ExtractedBindlessMeshes)
    (s : PrepareState) (x : ℕ) (r : GpuBindlessMesh)
    (hs : RegSorted s.meshes)
    (hrec : rmLookup x s.render_meshes = some r)
    (hrem : x ∈ ex.removed) :
    rmLookup x ((prepare_bindless_meshes ex s).1).render_meshes = some r := by
  have hdirty : (!ex.extracted.isEmpty || !ex.removed.isEmpty) = true := by
    cases hxe : ex.removed with
    | nil => rw [hxe] at hrem; simp at hrem
    | cons a l => simp [hxe]
  have hnotin : x ∉ ((ex.removed.foldl (fun acc h => rremove h acc)
      (ex.extracted.foldl (fun acc p => rinsert p.1 p.2 acc) s.meshes)).map
        Prod.fst) :=
    foldl_rremove_not_mem x ex.removed _ (foldl_rinsert_sorted _ _ hs) hrem
  simp only [prepare_bindless_meshes, hdirty, if_true]
  rw [packMeshes_rmLookup_not_mem x _ emptyMeta s.render_meshes hnotin]
  exact hrec

/-- Witness for C9: identity 5 is packed with record `{0,0,0}`, a tick
removes it, and the offset map still answers the stale record. -/
theorem c9_stale_offset_record_witness :
    (RegSorted (⟨⟨[], [], []⟩, [(5, meshA)], [(5, ⟨0, 0, 0⟩)]⟩ :
        PrepareState).meshes ∧
      rmLookup 5 (⟨⟨[], [], []⟩, [(5, meshA)], [(5, ⟨0, 0, 0⟩)]⟩ :
        PrepareState).render_meshes = some ⟨0, 0, 0⟩ ∧
      5 ∈ (⟨[], [5]⟩ : ExtractedBindlessMeshes).removed) ∧
    rmLookup 5 ((prepare_bindless_meshes ⟨[], [5]⟩
      ⟨⟨[], [], []⟩, [(5, meshA)], [(5, ⟨0, 0, 0⟩)]⟩).1).render_meshes
      = some ⟨0, 0, 0⟩ :=
  ⟨⟨by decide, by decide, by decide⟩,
    c9_stale_offset_record ⟨[], [5]⟩ _ 5 ⟨0, 0, 0⟩ (by decide) (by decide)
      (by decide)⟩

theorem collectExtracted_sound (assets : ℕ → Option MeshDescr) :
    ∀ (hs : List ℕ) (l : List (ℕ × BindlessMesh)),
      collectExtracted assets hs = .ok l →
      ∀ p ∈ l, ∃ mp, assets p.1 = some mp ∧ extract_mesh mp = .ok p.2
  | [], l, hok, p, hp => by
    simp only [collectExtracted] at hok
    injection hok with h
    subst h
    simp at hp
  | h :: rest, l, hok, p, hp => by
    simp only [collectExtracted] at hok
    cases hah : assets h with
    | none =>
      simp only [hah] at hok
      exact collectExtracted_sound assets rest l hok p hp
    | some mh =>
      simp only [hah] at hok
      cases heh : extract_mesh mh with
      | ok bm =>
        simp only [heh] at hok
        cases hcr : collectExtracted assets rest with
        | ok l2 =>
          simp only [hcr] at hok
          injection hok with h2
          subst h2
          rcases List.mem_cons.mp hp with rfl | hp2
          · exact ⟨mh, hah, heh⟩
          · exact collectExtracted_sound assets rest l2 hcr p hp2
        | err e => simp only [hcr] at hok; exact absurd hok (by simp)
        | crash => simp only [hcr] at hok; exact absurd hok (by simp)
      | err e =>
        simp only [heh] at hok
        exact collectExtracted_sound assets rest l hok p hp
      | crash => simp only [heh] at hok; exact absurd hok (by simp)

theorem collectExtracted_complete (assets : ℕ → Option MeshDescr) :
    ∀ (hs : List ℕ) (l : List (ℕ × BindlessMesh)),
      collectExtracted assets hs = .ok l →
      ∀ g mg bmg, g ∈ hs → assets g = some mg → extract_mesh mg = .ok bmg →
        (g, bmg) ∈ l
  | [], _, _, _, _, _, hg, _, _ => absurd hg (by simp)
  | h :: rest, l, hok, g, mg, bmg, hg, hag, heg => by
    simp only [collectExtracted] at hok
    rcases List.mem_cons.mp hg with rfl | hg2
    · simp only [hag, heg] at hok
      cases hcr : collectExtracted assets rest with
      | ok l2 =>
        simp only [hcr] at hok
        injection hok with h2
        subst h2
        exact List.mem_cons_self _ _
      | err e => simp only [hcr] at hok; exact absurd hok (by simp)
      | crash => simp only [hcr] at hok; exact absurd hok (by simp)
    · cases hah : assets h with
      | none =>
        simp only [hah] at hok
        exact collectExtracted_complete assets rest l hok g mg bmg hg2 hag heg
      | some mh =>
        simp only [hah] at hok
        cases heh : extract_mesh mh with
        | ok bm =>
          simp only [heh] at hok
          cases hcr : collectExtracted assets rest with
          | ok l2 =>
            simp only [hcr] at hok
            injection hok with h2
            subst h2
            exact List.mem_cons_of_mem _
              (collectExtracted_complete assets rest l2 hcr g mg bmg hg2 hag heg)
          | err e => simp only [hcr] at hok; exact absurd hok (by simp)
          | crash => simp only [hcr] at hok; exact absurd hok (by simp)
        | err e =>
          simp only [heh] at hok
          exact collectExtracted_complete assets rest l hok g mg bmg hg2 hag heg
        | crash => simp only [heh] at hok; exact absurd hok (by simp)

theorem track_created_only (f : ℕ) :
    ∀ (es : List AssetEvent) (s0 : TrackerOut),
      (s0 = ⟨[], []⟩ ∨ s0 = ⟨[f], []⟩) →
      (∀ ev ∈ es, ev = .Created f ∨ ev = .Modified f) →
      (es.foldl trackStep s0 = ⟨[], []⟩ ∨ es.foldl trackStep s0 = ⟨[f], []⟩)
  | [], _, h0, _ => h0
  | ev :: rest, s0, h0, hall => by
    simp only [List.foldl_cons]
    have hstep : trackStep s0 ev = ⟨[f], []⟩ := by
      rcases hall ev (List.mem_cons_self _ _) with rfl | rfl <;>
        rcases h0 with rfl | rfl <;> simp [trackStep]
    rw [hstep]
    exact track_created_only f rest _ (Or.inr rfl)
      (fun e he => hall e (List.mem_cons_of_mem _ he))

/-- C6: when extraction of one identity fails with an error (e.g.
`MissAttributeNormal`), that identity never appears in the extracted batch
(so it is neither inserted nor updated in the registry), every other
identity of the batch that extracts successfully is still processed, the
failing identity's registry entry is untouched provided it was not also
removed, and when the failing identity was the only event the prepare
phase leaves the state unchanged and uploads nothing. -/
theorem c6_failed_extraction (events : List AssetEvent)
    (assets : ℕ → Option MeshDescr) (f : ℕ) (mf : MeshDescr)
    (e : BindlessMeshError) (ex : ExtractedBindlessMeshes)
    (haf : assets f = some mf) (hfail : extract_mesh mf = .err e)
    (hex : extract_bindless_meshes events assets = .ok ex) :
    (∀ p ∈ ex.extracted, p.1 ≠ f) ∧
    (∀ g mg bmg, g ∈ (trackEvents events).changed → assets g = some mg →
      extract_mesh mg = .ok bmg → (g, bmg) ∈ ex.extracted) ∧
    (f ∉ ex.removed →
      ∀ s, rlookup f ((prepare_bindless_meshes ex s).1).meshes
        = rlookup f s.meshes) ∧
    ((∀ ev ∈ events, ev = .Created f ∨ ev = .Modified f) →
      ∀ s, prepare_bindless_meshes ex s = (s, false)) := by
  simp only [extract_bindless_meshes] at hex
  cases hcl : collectExtracted assets (trackEvents events).changed with
  | err e2 => rw [hcl] at hex; exact absurd hex (by simp)
  | crash => rw [hcl] at hex; exact absurd hex (by simp)
  | ok l =>
    rw [hcl] at hex
    injection hex with hex2
    subst hex2
    have hne : ∀ p ∈ l, p.1 ≠ f := by
      intro p hp hpf
      obtain ⟨mp, hmp, hok⟩ := collectExtracted_sound assets _ l hcl p hp
      rw [hpf, haf] at hmp
      injection hmp with hmm
      subst hmm
      rw [hfail] at hok
      exact absurd hok (by simp)
    refine ⟨hne, ?_, ?_, ?_⟩
    · intro g mg bmg hg hag heg
      exact collectExtracted_complete assets _ l hcl g mg bmg hg hag heg
    · intro hfr s
      have hreg : rlookup f ((trackEvents events).removed.foldl
          (fun acc h => rremove h acc)
          (l.foldl (fun acc p => rinsert p.1 p.2 acc) s.meshes))
          = rlookup f s.meshes := by
        rw [foldl_rremove_rlookup_ne f _ _ hfr,
          foldl_rinsert_rlookup_ne f l s.meshes hne]
      cases hb : (!l.isEmpty || !(trackEvents events).removed.isEmpty) with
      | true =>
        simp only [prepare_bindless_meshes, hb, if_true]
        exact hreg
      | false => simp [prepare_bindless_meshes, hb]
    · intro hall s
      have htro := track_created_only f events ⟨[], []⟩ (Or.inl rfl) hall
      have hrem : (trackEvents events).removed = [] := by
        rcases htro with htr | htr <;> rw [show trackEvents events
          = events.foldl trackStep ⟨[], []⟩ from rfl, htr]
      have hl : l = [] := by
        rcases htro with htr | htr
        · rw [show trackEvents events
            = events.foldl trackStep ⟨[], []⟩ from rfl, htr] at hcl
          simp only [collectExtracted] at hcl
          injection hcl with h2
          exact h2.symm
        · rw [show trackEvents events
            = events.foldl trackStep ⟨[], []⟩ from rfl, htr] at hcl
          simp only [collectExtracted, haf, hfail] at hcl
          injection hcl with h2
          exact h2.symm
      subst hl
      rw [show (prepare_bindless_meshes ⟨[], (trackEvents events).removed⟩ s)
        = prepare_bindless_meshes ⟨[], []⟩ s from by rw [hrem]]
      rfl

/-- Witness for C6: a batch containing only `Created 0` where asset 0
lacks its normal attribute — extraction fails with `MissAttributeNormal`,
the extracted batch is empty, and the prepare phase leaves registry and
buffers unchanged with no upload. -/
theorem c6_failed_extraction_witness :
    ((fun h => if h = 0 then some noNormalsMesh else none :
        ℕ → Option MeshDescr) 0 = some noNormalsMesh ∧
      extract_mesh noNormalsMesh = .err .MissAttributeNormal ∧
      extract_bindless_meshes [.Created 0]
        (fun h => if h = 0 then some noNormalsMesh else none)
        = .ok ⟨[], []⟩) ∧
    prepare_bindless_meshes ⟨[], []⟩ ⟨⟨[], [], []⟩, [], []⟩
      = (⟨⟨[], [], []⟩, [], []⟩, false) :=
  ⟨⟨rfl, by decide, rfl⟩,
    (c6_failed_extraction [.Created 0]
      (fun h => if h = 0 then some noNormalsMesh else none) 0 noNormalsMesh
      .MissAttributeNormal ⟨[], []⟩ rfl (by decide) rfl).2.2.2
      (by decide) _⟩

/-- C7: extraction plus BVH build is a pure function of the mesh
description, so removing an identity in one tick and re-inserting the
unchanged source mesh in the next yields a compiled record equal to the
original: after the two ticks the registry holds exactly the same
`BindlessMesh` (vertex, primitive and node arrays) under that identity. -/
theorem c7_remove_readd (s : PrepareState) (x : ℕ) (m : MeshDescr)
    (bm : BindlessMesh) (assets : ℕ → Option MeshDescr)
    (ha : assets x = some m) (he : extract_mesh m = .ok bm)
    (hs : rlookup x s.meshes = some bm) :
    ∃ s1 u1 s2 u2,
      tick [.Removed x] assets s = .ok (s1, u1) ∧
      tick [.Created x] assets s1 = .ok (s2, u2) ∧
      rlookup x s2.meshes = some bm ∧
      rlookup x s2.meshes = rlookup x s.meshes := by
  have h1 : extract_bindless_meshes [.Removed x] assets = .ok ⟨[], [x]⟩ := rfl
  have hc : collectExtracted assets [x] = .ok [(x, bm)] := by
    simp only [collectExtracted, ha, he]
  have h2 : extract_bindless_meshes [.Created x] assets
      = .ok ⟨[(x, bm)], []⟩ := by
    simp only [extract_bindless_meshes]
    rw [show (trackEvents [.Created x]).changed = [x] from rfl, hc]
    rfl
  refine ⟨(prepare_bindless_meshes ⟨[], [x]⟩ s).1,
    (prepare_bindless_meshes ⟨[], [x]⟩ s).2,
    (prepare_bindless_meshes ⟨[(x, bm)], []⟩
      (prepare_bindless_meshes ⟨[], [x]⟩ s).1).1,
    (prepare_bindless_meshes ⟨[(x, bm)], []⟩
      (prepare_bindless_meshes ⟨[], [x]⟩ s).1).2, ?_, ?_, ?_, ?_⟩
  · simp only [tick, h1]
  · simp only [tick, h2]
  · exact rlookup_rinsert_self x bm _
  · exact (rlookup_rinsert_self x bm _).trans hs.symm

/-- Witness for C7: a single-triangle mesh compiled to a concrete record,
removed and re-added under identity 0, recovering the original record. -/
theorem c7_remove_readd_witness :
    ((fun h => if h = 0 then some (⟨some [⟨0, 0, 0⟩, ⟨1, 0, 0⟩, ⟨0, 1, 0⟩],
      some [⟨0, 0, 1⟩, ⟨0, 0, 1⟩, ⟨0, 0, 1⟩],
      some [⟨0, 0⟩, ⟨0, 1⟩, ⟨1, 1⟩], some [0, 1, 2], .TriangleList⟩ : MeshDescr) else none :
        ℕ → Option MeshDescr) 0 = some ⟨some [⟨0, 0, 0⟩, ⟨1, 0, 0⟩, ⟨0, 1, 0⟩],
      some [⟨0, 0, 1⟩, ⟨0, 0, 1⟩, ⟨0, 0, 1⟩],
      some [⟨0, 0⟩, ⟨0, 1⟩, ⟨1, 1⟩], some [0, 1, 2], .TriangleList⟩ ∧
      extract_mesh ⟨some [⟨0, 0, 0⟩, ⟨1, 0, 0⟩, ⟨0, 1, 0⟩],
      some [⟨0, 0, 1⟩, ⟨0, 0, 1⟩, ⟨0, 0, 1⟩],
      some [⟨0, 0⟩, ⟨0, 1⟩, ⟨1, 1⟩], some [0, 1, 2], .TriangleList⟩ = .ok ⟨[⟨⟨0, 0, 0⟩, ⟨0, 0, 1⟩, ⟨0, 0⟩⟩, ⟨⟨1, 0, 0⟩, ⟨0, 0, 1⟩, ⟨0, 1⟩⟩,
        ⟨⟨0, 1, 0⟩, ⟨0, 0, 1⟩, ⟨1, 1⟩⟩],
      [⟨(⟨0, 0, 0⟩, ⟨1, 0, 0⟩, ⟨0, 1, 0⟩), (0, 1, 2), 0⟩],
      [⟨⟨0, 0, 0⟩, ⟨1, 1, 0⟩, leafSentinel, 1, 0⟩]⟩ ∧
      rlookup 0 (⟨⟨[], [], []⟩, [(0, ⟨[⟨⟨0, 0, 0⟩, ⟨0, 0, 1⟩, ⟨0, 0⟩⟩, ⟨⟨1, 0, 0⟩, ⟨0, 0, 1⟩, ⟨0, 1⟩⟩,
        ⟨⟨0, 1, 0⟩, ⟨0, 0, 1⟩, ⟨1, 1⟩⟩],
      [⟨(⟨0, 0, 0⟩, ⟨1, 0, 0⟩, ⟨0, 1, 0⟩), (0, 1, 2), 0⟩],
      [⟨⟨0, 0, 0⟩, ⟨1, 1, 0⟩, leafSentinel, 1, 0⟩]⟩)], []⟩ : PrepareState).meshes
        = some ⟨[⟨⟨0, 0, 0⟩, ⟨0, 0, 1⟩, ⟨0, 0⟩⟩, ⟨⟨1, 0, 0⟩, ⟨0, 0, 1⟩, ⟨0, 1⟩⟩,
        ⟨⟨0, 1, 0⟩, ⟨0, 0, 1⟩, ⟨1, 1⟩⟩],
      [⟨(⟨0, 0, 0⟩, ⟨1, 0, 0⟩, ⟨0, 1, 0⟩), (0, 1, 2), 0⟩],
      [⟨⟨0, 0, 0⟩, ⟨1, 1, 0⟩, leafSentinel, 1, 0⟩]⟩) ∧
    ∃ s1 u1 s2 u2,
      tick [.Removed 0]
        (fun h => if h = 0 then some (⟨some [⟨0, 0, 0⟩, ⟨1, 0, 0⟩, ⟨0, 1, 0⟩],
      some [⟨0, 0, 1⟩, ⟨0, 0, 1⟩, ⟨0, 0, 1⟩],
      some [⟨0, 0⟩, ⟨0, 1⟩, ⟨1, 1⟩], some [0, 1, 2], .TriangleList⟩ : MeshDescr) else none)
        ⟨⟨[], [], []⟩, [(0, ⟨[⟨⟨0, 0, 0⟩, ⟨0, 0, 1⟩, ⟨0, 0⟩⟩, ⟨⟨1, 0, 0⟩, ⟨0, 0, 1⟩, ⟨0, 1⟩⟩,
        ⟨⟨0, 1, 0⟩, ⟨0, 0, 1⟩, ⟨1, 1⟩⟩],
      [⟨(⟨0, 0, 0⟩, ⟨1, 0, 0⟩, ⟨0, 1, 0⟩), (0, 1, 2), 0⟩],
      [⟨⟨0, 0, 0⟩, ⟨1, 1, 0⟩, leafSentinel, 1, 0⟩]⟩)], []⟩ = .ok (s1, u1) ∧
      tick [.Created 0]
        (fun h => if h = 0 then some (⟨some [⟨0, 0, 0⟩, ⟨1, 0, 0⟩, ⟨0, 1, 0⟩],
      some [⟨0, 0, 1⟩, ⟨0, 0, 1⟩, ⟨0, 0, 1⟩],
      some [⟨0, 0⟩, ⟨0, 1⟩, ⟨1, 1⟩], some [0, 1, 2], .TriangleList⟩ : MeshDescr) else none) s1
        = .ok (s2, u2) ∧
      rlookup 0 s2.meshes = some ⟨[⟨⟨0, 0, 0⟩, ⟨0, 0, 1⟩, ⟨0, 0⟩⟩, ⟨⟨1, 0, 0⟩, ⟨0, 0, 1⟩, ⟨0, 1⟩⟩,
        ⟨⟨0, 1, 0⟩, ⟨0, 0, 1⟩, ⟨1, 1⟩⟩],
      [⟨(⟨0, 0, 0⟩, ⟨1, 0, 0⟩, ⟨0, 1, 0⟩), (0, 1, 2), 0⟩],
      [⟨⟨0, 0, 0⟩, ⟨1, 1, 0⟩, leafSentinel, 1, 0⟩]⟩ ∧
      rlookup 0 s2.meshes
        = rlookup 0 (⟨⟨[], [], []⟩, [(0, ⟨[⟨⟨0, 0, 0⟩, ⟨0, 0, 1⟩, ⟨0, 0⟩⟩, ⟨⟨1, 0, 0⟩, ⟨0, 0, 1⟩, ⟨0, 1⟩⟩,
        ⟨⟨0, 1, 0⟩, ⟨0, 0, 1⟩, ⟨1, 1⟩⟩],
      [⟨(⟨0, 0, 0⟩, ⟨1, 0, 0⟩, ⟨0, 1, 0⟩), (0, 1, 2), 0⟩],
      [⟨⟨0, 0, 0⟩, ⟨1, 1, 0⟩, leafSentinel, 1, 0⟩]⟩)], []⟩ : PrepareState).meshes :=
  ⟨⟨rfl, by decide, by decide⟩,
    c7_remove_readd ⟨⟨[], [], []⟩, [(0, ⟨[⟨⟨0, 0, 0⟩, ⟨0, 0, 1⟩, ⟨0, 0⟩⟩, ⟨⟨1, 0, 0⟩, ⟨0, 0, 1⟩, ⟨0, 1⟩⟩,
        ⟨⟨0, 1, 0⟩, ⟨0, 0, 1⟩, ⟨1, 1⟩⟩],
      [⟨(⟨0, 0, 0⟩, ⟨1, 0, 0⟩, ⟨0, 1, 0⟩), (0, 1, 2), 0⟩],
      [⟨⟨0, 0, 0⟩, ⟨1, 1, 0⟩, leafSentinel, 1, 0⟩]⟩)], []⟩ 0 ⟨some [⟨0, 0, 0⟩, ⟨1, 0, 0⟩, ⟨0, 1, 0⟩],
      some [⟨0, 0, 1⟩, ⟨0, 0, 1⟩, ⟨0, 0, 1⟩],
      some [⟨0, 0⟩, ⟨0, 1⟩, ⟨1, 1⟩], some [0, 1, 2], .TriangleList⟩ ⟨[⟨⟨0, 0, 0⟩, ⟨0, 0, 1⟩, ⟨0, 0⟩⟩, ⟨⟨1, 0, 0⟩, ⟨0, 0, 1⟩, ⟨0, 1⟩⟩,
        ⟨⟨0, 1, 0⟩, ⟨0, 0, 1⟩, ⟨1, 1⟩⟩],
      [⟨(⟨0, 0, 0⟩, ⟨1, 0, 0⟩, ⟨0, 1, 0⟩), (0, 1, 2), 0⟩],
      [⟨⟨0, 0, 0⟩, ⟨1, 1, 0⟩, leafSentinel, 1, 0⟩]⟩
      (fun h => if h = 0 then some (⟨some [⟨0, 0, 0⟩, ⟨1, 0, 0⟩, ⟨0, 1, 0⟩],
      some [⟨0, 0, 1⟩, ⟨0, 0, 1⟩, ⟨0, 0, 1⟩],
      some [⟨0, 0⟩, ⟨0, 1⟩, ⟨1, 1⟩], some [0, 1, 2], .TriangleList⟩ : MeshDescr) else none)
      rfl (by decide) (by decide)⟩
